import Mathlib

/-!
Verification of `tools/coverage_tracker.py` (scanner, matcher, aggregator).

The Python program is shallowly embedded: strings are Lean `String`s,
Python `in` / `replace` / `split` / `lower` are modelled character by
character on `List Char`, the scanner is a fold over an explicit list of
discovered files, and every matcher is a pure function from a `Feature`
and the scanned data to the updated `Feature`.
-/

namespace Coverage

/-! ## Python string primitives -/

/-- Python `needle in hay` (substring containment) on character lists. -/
def pyIn (needle : List Char) : List Char → Bool
  | [] => needle.isEmpty
  | c :: t => needle.isPrefixOf (c :: t) || pyIn needle t

/-- Python `needle in hay` on strings. -/
def substr (needle hay : String) : Bool := pyIn needle.data hay.data

/-- Python `str.lower()` (the program only feeds ASCII identifiers). -/
def pyLower (s : String) : String := ⟨s.data.map Char.toLower⟩

/-- Python `str.capitalize()`: first character upper-cased, rest lower-cased. -/
def pyCapitalize (s : String) : String :=
  match s.data with
  | [] => ""
  | c :: t => ⟨c.toUpper :: t.map Char.toLower⟩

/-- One step of Python `str.title()`: the boolean tracks whether the
previous character was a letter. -/
def pyTitleAux : Bool → List Char → List Char
  | _, [] => []
  | prev, c :: t =>
    (if c.isAlpha then (if prev then c.toLower else c.toUpper) else c) ::
      pyTitleAux c.isAlpha t

/-- Python `str.title()`. -/
def pyTitle (s : String) : String := ⟨pyTitleAux false s.data⟩

/-- Python `s.replace(pat, rep)` on character lists (all occurrences,
left to right, non-overlapping).  Fuel-driven so that it reduces in the
kernel; the fuel is always instantiated with the length of the list and
the pattern is non-empty at every call site of the program. -/
def listReplaceAux (pat rep : List Char) : Nat → List Char → List Char
  | _, [] => []
  | 0, l => l
  | fuel + 1, c :: t =>
    if !pat.isEmpty && pat.isPrefixOf (c :: t) then
      rep ++ listReplaceAux pat rep fuel (List.drop (pat.length - 1) t)
    else
      c :: listReplaceAux pat rep fuel t

/-- Python `s.replace(pat, rep)`. -/
def pyReplace (s pat rep : String) : String :=
  ⟨listReplaceAux pat.data rep.data s.data.length s.data⟩

/-- Splits at the first occurrence of `sep`: returns the part before and
the part after, or `none` when `sep` does not occur. -/
def splitOnceAux (sep : List Char) : List Char → Option (List Char × List Char)
  | [] => none
  | c :: t =>
    if sep.isPrefixOf (c :: t) then
      some ([], List.drop (sep.length - 1) t)
    else
      (splitOnceAux sep t).map (fun p => (c :: p.1, p.2))

/-- Python `s.split(sep, 1)` (the program always passes a non-empty
separator). -/
def pySplit1 (s sep : String) : List String :=
  match splitOnceAux sep.data s.data with
  | none => [s]
  | some (a, b) => [⟨a⟩, ⟨b⟩]

/-- Python `s.split(sep, 1)[1] if sep in s else s`, the idiom the matcher
uses to take everything after the first separator. -/
def pyAfterFirst (s sep : String) : String :=
  match splitOnceAux sep.data s.data with
  | none => s
  | some (_, b) => ⟨b⟩

/-- Python `s.split(sep)` (unbounded, explicit separator: empty parts are
kept).  Fuel-driven; the fuel is instantiated with the length. -/
def splitAllAux (sep : List Char) : Nat → List Char → List Char → List (List Char)
  | _, acc, [] => [acc.reverse]
  | 0, acc, l => [acc.reverse ++ l]
  | fuel + 1, acc, c :: t =>
    if sep.isPrefixOf (c :: t) then
      acc.reverse :: splitAllAux sep fuel [] (List.drop (sep.length - 1) t)
    else
      splitAllAux sep fuel (c :: acc) t

/-- Python `s.split(sep)` with a non-empty separator. -/
def pySplitAll (s sep : String) : List String :=
  (splitAllAux sep.data s.data.length [] s.data).map (⟨·⟩)

/-- One step of `re.sub(r"(?<=[a-z])([A-Z])", r"_\1", s)`: an underscore is
inserted before every upper-case letter that follows a lower-case letter.
The `Option Char` argument is the previous character of the original
string. -/
def snakeAux : Option Char → List Char → List Char
  | _, [] => []
  | prev, c :: t =>
    (if (match prev with | some p => p.isLower | none => false) && c.isUpper then
      ['_', c]
    else
      [c]) ++ snakeAux (some c) t

/-- Python `re.sub(r"(?<=[a-z])([A-Z])", r"_\1", name).lower()` from
`_match_setting`. -/
def pySnakeLower (s : String) : String := pyLower ⟨snakeAux none s.data⟩

/-- Regex `\w` (the program only meets ASCII identifiers). -/
def isWordChar (c : Char) : Bool := c.isAlphanum || c == '_'

/-- Python `re.sub(r":(\w+)", lambda m: "\x7b" + m.group(1) + "\x7d", route)`:
every `:name` route parameter becomes a brace-delimited `name` token
(`_param_to_rust` is the identity).  Fuel-driven. -/
def braceParamsAux : Nat → List Char → List Char
  | _, [] => []
  | 0, l => l
  | fuel + 1, c :: t =>
    if c == ':' && !(t.takeWhile isWordChar).isEmpty then
      '{' :: t.takeWhile isWordChar ++ '}' :: braceParamsAux fuel (t.dropWhile isWordChar)
    else
      c :: braceParamsAux fuel t

/-- The translated route of `_match_api_endpoint` (`route_rust`). -/
def braceParams (s : String) : String := ⟨braceParamsAux s.data.length s.data⟩

/-! ## Data model (`Feature`, `CrateInfo`) -/

/-- The `Feature` dataclass: one catalog entry.  Defaults follow the
dataclass defaults (`status="missing"`, empty evidence strings). -/
structure Feature where
  category : String
  subcategory : String
  name : String
  status : String := "missing"
  rust_file : String := ""
  rust_symbol : String := ""
  notes : String := ""
deriving DecidableEq

/-- The `CrateInfo` dataclass: the Module Record for one crate. -/
structure CrateInfo where
  name : String
  files : List String := []
  structs : List String := []
  functions : List String := []
  enums : List String := []
  traits : List String := []
  impls : List String := []
  test_count : Nat := 0
  line_count : Nat := 0
deriving DecidableEq

/-! ## Symbol scanner (`scan_rust_source`)

A discovered file is modelled by its full path components (`parts`, used
for the `target` filter), its path components relative to the scan root
(`rel`), and `content`: `some text` when `read_text` succeeds (decode
errors already replaced, as the Python call never raises for them) or
`none` when the read raises. -/

structure SrcFile where
  parts : List String
  rel : List String
  content : Option String
deriving DecidableEq

/-- Python `str(rel.parts[0]) if rel.parts else "unknown"`. -/
def fileCrate (f : SrcFile) : String := f.rel.headD "unknown"

/-- Python `str(rel)`: the relative path joined back into one string. -/
def relStr (f : SrcFile) : String := String.intercalate "/" f.rel

/-- Python `content.count("\n")`. -/
def countNewlines (s : String) : Nat := s.data.countP (· == '\n')

/-- Regex `\s` (ASCII part). -/
def isPySpace (c : Char) : Bool :=
  c == ' ' || c == '\t' || c == '\n' || c == '\r' || c == '\x0b' || c == '\x0c'

/-- Python `len(re.findall(r"#\[(?:tokio::)?test\]", content))`: non-overlapping
occurrences, scanning left to right, the optional group tried first. -/
def countTestsAux : Nat → List Char → Nat
  | _, [] => 0
  | 0, _ => 0
  | fuel + 1, c :: t =>
    if ("#[tokio::test]".data).isPrefixOf (c :: t) then
      1 + countTestsAux fuel (List.drop 13 t)
    else if ("#[test]".data).isPrefixOf (c :: t) then
      1 + countTestsAux fuel (List.drop 6 t)
    else
      countTestsAux fuel t

def countTests (s : String) : Nat := countTestsAux s.data.length s.data

/-- Matches a literal at the head of the input, returning the rest. -/
def matchLit (lit l : List Char) : Option (List Char) :=
  if lit.isPrefixOf l then some (List.drop lit.length l) else none

/-- Regex `\s+` (greedy, at least one whitespace). -/
def matchSpaces1 (l : List Char) : Option (List Char) :=
  match l with
  | [] => none
  | c :: t => if isPySpace c then some ((c :: t).dropWhile isPySpace) else none

/-- Regex `(\w+)` (greedy, at least one word character): the captured word
and the rest. -/
def matchWord1 (l : List Char) : Option (String × List Char) :=
  let w := l.takeWhile isWordChar
  if w.isEmpty then none else some (⟨w⟩, l.dropWhile isWordChar)

/-- The `re.finditer` driver: at each position, try `step`; on a match record
the capture and resume after the match, otherwise advance one character.
Every `step` below consumes at least one character, so fuel = input length
is enough. -/
def scanMatches (step : List Char → Option (String × List Char)) :
    Nat → List Char → List String
  | _, [] => []
  | 0, _ => []
  | fuel + 1, c :: t =>
    match step (c :: t) with
    | some (w, rest) => w :: scanMatches step fuel rest
    | none => scanMatches step fuel t

/-- One attempt of `pub\s+<kw>\s+(\w+)` at the current position. -/
def stepPubKw (kw : List Char) (l : List Char) : Option (String × List Char) := do
  let r1 ← matchLit "pub".data l
  let r2 ← matchSpaces1 r1
  let r3 ← matchLit kw r2
  let r4 ← matchSpaces1 r3
  matchWord1 r4

/-- One attempt of `pub\s+(?:async\s+)?fn\s+(\w+)` at the current
position.  When `async\s+` is present but `fn` does not follow, regex
backtracking to the no-`async` branch also fails (the next character is
then `a`, not `f`), so trying the optional group first is faithful. -/
def stepPubFn (l : List Char) : Option (String × List Char) := do
  let r1 ← matchLit "pub".data l
  let r2 ← matchSpaces1 r1
  let r2' := match (do let a ← matchLit "async".data r2; matchSpaces1 a) with
    | some r => r
    | none => r2
  let r3 ← matchLit "fn".data r2'
  let r4 ← matchSpaces1 r3
  matchWord1 r4

/-- One attempt of `impl(?:\s+\w+\s+for)?\s+(\w+)` at the current
position.  `\w+` followed by `\s+` is maximal-munch, so the only
backtracking that can succeed is giving the optional group up entirely,
which the fallback covers. -/
def stepImpl (l : List Char) : Option (String × List Char) := do
  let r1 ← matchLit "impl".data l
  let plain : Option (String × List Char) := do
    let r3 ← matchSpaces1 r1
    matchWord1 r3
  let tryOpt : Option (List Char) := do
    let a ← matchSpaces1 r1
    let (_, b) ← matchWord1 a
    let c ← matchSpaces1 b
    matchLit "for".data c
  match tryOpt with
  | some r2 => (do let r3 ← matchSpaces1 r2; matchWord1 r3) <|> plain
  | none => plain

def extractStructs (s : String) : List String :=
  scanMatches (stepPubKw "struct".data) s.data.length s.data

def extractEnums (s : String) : List String :=
  scanMatches (stepPubKw "enum".data) s.data.length s.data

def extractTraits (s : String) : List String :=
  scanMatches (stepPubKw "trait".data) s.data.length s.data

def extractFunctions (s : String) : List String :=
  scanMatches stepPubFn s.data.length s.data

def extractImpls (s : String) : List String :=
  scanMatches stepImpl s.data.length s.data

/-- The per-file mutation of the crate record inside the scanner loop:
the relative path is appended first; when the read raised, nothing else
happens (`continue`). -/
def addFile (f : SrcFile) (info : CrateInfo) : CrateInfo :=
  let info := { info with files := info.files ++ [relStr f] }
  match f.content with
  | none => info
  | some content =>
    { info with
      line_count := info.line_count + (countNewlines content + 1)
      test_count := info.test_count + countTests content
      structs := info.structs ++ extractStructs content
      enums := info.enums ++ extractEnums content
      traits := info.traits ++ extractTraits content
      functions := info.functions ++ extractFunctions content
      impls := info.impls ++ extractImpls content }

def emptyCrate (k : String) : CrateInfo := { name := k }

/-- Python `crates[crate_name] = CrateInfo(name=crate_name)` on a miss, then
mutate in place: association-list update keyed on the crate name. -/
def updateCrate : List (String × CrateInfo) → String → (CrateInfo → CrateInfo) →
    List (String × CrateInfo)
  | [], k, g => [(k, g (emptyCrate k))]
  | (k', info) :: rest, k, g =>
    if k' = k then (k', g info) :: rest else (k', info) :: updateCrate rest k g

/-- One iteration of the scanner loop: skip files inside a `target`
directory, otherwise update the file's crate record. -/
def processFile (crates : List (String × CrateInfo)) (f : SrcFile) :
    List (String × CrateInfo) :=
  if f.parts.contains "target" then crates
  else updateCrate crates (fileCrate f) (addFile f)

/-- The function `scan_rust_source`, as a fold over the discovered files in traversal
order. -/
def scanRustSource (files : List SrcFile) : List (String × CrateInfo) :=
  files.foldl processFile []

/-- Dictionary lookup by crate name. -/
def lookupCrate (k : String) : List (String × CrateInfo) → Option CrateInfo
  | [] => none
  | (k', info) :: rest => if k' = k then some info else lookupCrate k rest

/-! ## Matching engine -/

/-- Python `all_content.get(k, "")`: map from crate name to its concatenated
source text. -/
def lookupStr (k : String) : List (String × String) → String
  | [] => ""
  | (k', v) :: t => if k' = k then v else lookupStr k t

/-- Python `d.get(key, default)` over an insertion-ordered dict. -/
def lookupD : List (String × String) → String → String → String
  | [], _, d => d
  | (k, v) :: t, key, d => if k = key then v else lookupD t key d

/-- The inputs `_match_single_feature` consumes: the cross-crate
`all_structs` index and the per-crate concatenated texts (`all_functions`
and `all_enums` are built but never read by any matcher). -/
structure MatchEnv where
  allStructs : List String
  allContent : List (String × String)
deriving DecidableEq

/-- Sets `status = "implemented"` and the evidence file, the common shape
of every branch of `_match_api_endpoint` and `_match_cli_command`. -/
def implAt (file : String) (feat : Feature) : Feature :=
  { feat with status := "implemented", rust_file := file }

/-- The `route_keywords` table of `_match_api_endpoint`, in insertion
order. -/
def routeKeywords : List (String × String) :=
  [("ping", "ping"), ("server/info", "server_info"),
   ("restart/soft", "restart_soft"), ("restart/hard", "restart_hard"),
   ("update/check", "check_update"), ("update/install", "install_update"),
   ("statistics/totals", "totals"), ("statistics/media", "media_totals"),
   ("server/logs", "logs"), ("chat/count", "chat_count"),
   ("chat/query", "query_chats"), ("chat/new", "create_chat"),
   ("message/count", "message_count"), ("message/query", "query_messages"),
   ("message/text", "send_text"), ("message/multipart", "send_multipart"),
   ("message/react", "send_reaction"), ("message/schedule", "scheduled_message"),
   ("attachment/count", "attachment_count"), ("attachment/upload", "send_attachment"),
   ("handle/count", "handle_count"), ("handle/query", "query_handles"),
   ("handle/availability/imessage", "check_imessage"),
   ("handle/availability/facetime", "check_facetime"),
   ("contact", "contacts"), ("contact/query", "query_contacts"),
   ("contact/upload", "upload_contacts"), ("fcm/device", "register_fcm"),
   ("fcm/client", "get_fcm"), ("mac/lock", "lock_mac"),
   ("mac/imessage/restart", "restart_imessage"), ("backup/theme", "theme_backup"),
   ("backup/settings", "settings_backup"), ("facetime/answer", "answer_facetime"),
   ("facetime/leave", "leave_facetime"), ("icloud/findmy/devices", "findmy_devices"),
   ("icloud/findmy/friends", "findmy_friends"), ("icloud/account", "icloud_account"),
   ("icloud/contact", "icloud_contact"), ("icloud/account/alias", "icloud_alias")]

/-- The `for route_key, fn_key in route_keywords.items()` loop: true when
some pair has its route fragment inside the route and its function token
inside the API text (first match breaks; every iteration writes the same
evidence file, so only the boolean matters). -/
def anyRouteKeyword : List (String × String) → String → String → Bool
  | [], _, _ => false
  | (rk, fk) :: t, route, api =>
    if substr rk route && substr fk api then true else anyRouteKeyword t route api

/-- The final special-case `elif` chain of `_match_api_endpoint`. -/
def apiSpecialCases (feat : Feature) (method route api : String) : Feature :=
  if substr "/read" route && substr "mark_chat_read" api then
    implAt "bb-api/src/endpoints/chats.rs" feat
  else if substr "/unread" route && substr "mark_chat_unread" api then
    implAt "bb-api/src/endpoints/chats.rs" feat
  else if substr "/leave" route && substr "leave_chat" api then
    implAt "bb-api/src/endpoints/chats.rs" feat
  else if substr "/participant/add" route && substr "add_participant" api then
    implAt "bb-api/src/endpoints/chats.rs" feat
  else if substr "/participant/remove" route && substr "remove_participant" api then
    implAt "bb-api/src/endpoints/chats.rs" feat
  else if substr "/icon" route && substr "chat_icon" api then
    implAt "bb-api/src/endpoints/chats.rs" feat
  else if substr "embedded-media" route && substr "embedded_media" api then
    implAt "bb-api/src/endpoints/messages.rs" feat
  else if substr "/unsend" route && substr "unsend_message" api then
    implAt "bb-api/src/endpoints/messages.rs" feat
  else if substr "/edit" route && substr "edit_message" api then
    implAt "bb-api/src/endpoints/messages.rs" feat
  else if substr "/notify" route && substr "notify_message" api then
    implAt "bb-api/src/endpoints/messages.rs" feat
  else if substr "/live" route && substr "live_photo" api then
    implAt "bb-api/src/endpoints/attachments.rs" feat
  else if substr "/blurhash" route && substr "blurhash" api then
    implAt "bb-api/src/endpoints/attachments.rs" feat
  else if substr "/download" route && substr "download_attachment" api then
    implAt "bb-api/src/endpoints/attachments.rs" feat
  else if substr "/focus" route && substr "handle_focus" api then
    implAt "bb-api/src/endpoints/handles.rs" feat
  else if substr "findmy/devices/refresh" route && substr "refresh_findmy_devices" api then
    implAt "bb-api/src/endpoints/icloud.rs" feat
  else if substr "findmy/friends/refresh" route && substr "refresh_findmy_friends" api then
    implAt "bb-api/src/endpoints/icloud.rs" feat
  else if substr ":guid" route && method = "GET" && substr "get_chat" api
      && feat.subcategory = "Chat" then
    implAt "bb-api/src/endpoints/chats.rs" feat
  else if substr ":guid" route && method = "PUT" && substr "update_chat" api
      && feat.subcategory = "Chat" then
    implAt "bb-api/src/endpoints/chats.rs" feat
  else if substr ":guid" route && method = "DELETE" && substr "delete_chat" api
      && feat.subcategory = "Chat" then
    implAt "bb-api/src/endpoints/chats.rs" feat
  else if substr "/message" route && substr ":guid" route && method = "GET"
      && feat.subcategory = "Chat" then
    if substr "get_chat_messages" api then
      implAt "bb-api/src/endpoints/chats.rs" feat
    else feat
  else if substr ":messageGuid" route && method = "DELETE"
      && feat.subcategory = "Chat" then
    if substr "delete_chat_message" api then
      implAt "bb-api/src/endpoints/chats.rs" feat
    else feat
  else if substr ":guid" route && method = "GET" && feat.subcategory = "Message" then
    if substr "get_message" api then
      implAt "bb-api/src/endpoints/messages.rs" feat
    else feat
  else if substr ":guid" route && method = "GET" && feat.subcategory = "Attachment" then
    if substr "get_attachment" api then
      implAt "bb-api/src/endpoints/attachments.rs" feat
    else feat
  else if substr ":guid" route && method = "GET" && feat.subcategory = "Handle" then
    if substr "get_handle" api then
      implAt "bb-api/src/endpoints/handles.rs" feat
    else feat
  else feat

/-- The function `_match_api_endpoint`. -/
def matchApiEndpoint (feat : Feature) (env : MatchEnv) : Feature :=
  let api := lookupStr "bb-api" env.allContent
  match splitOnceAux " ".data feat.name.data with
  | none => feat
  | some (m, p) =>
    let method : String := ⟨m⟩
    let path : String := ⟨p⟩
    let route := pyReplace path "/api/v1" ""
    let route_rust := braceParams route
    let significant := (pySplitAll route "/").filter
      (fun s => !(s = "") && !s.startsWith ":")
    if substr route_rust api || substr ("\"" ++ route ++ "\"") api then
      implAt ("bb-api/src/endpoints/" ++ pyLower feat.subcategory ++ ".rs") feat
    else if significant.length ≥ 2
        && (significant.drop (significant.length - 2)).all (fun s => substr s api) then
      implAt ("bb-api/src/endpoints/" ++ pyLower feat.subcategory ++ ".rs") feat
    else if anyRouteKeyword routeKeywords route api then
      implAt ("bb-api/src/endpoints/" ++ pyLower feat.subcategory ++ ".rs") feat
    else
      apiSpecialCases feat method route api

/-- The `_event_to_variant` mapping. -/
def eventToVariant (e : String) : String :=
  lookupD
    [("new-message", "NewMessage"), ("updated-message", "UpdatedMessage"),
     ("typing-indicator", "TypingIndicator"), ("group-name-change", "ChatUpdate"),
     ("chat-read-status-changed", "ChatReadStatusChanged"),
     ("participant-removed", "ParticipantRemoved"),
     ("participant-added", "ParticipantAdded"),
     ("participant-left", "ParticipantLeft"),
     ("group-icon-changed", "GroupIconChanged"),
     ("incoming-facetime", "IncomingFaceTime"),
     ("ft-call-status-changed", "FtCallStatusChanged"),
     ("imessage-aliases-removed", "IMessageAliasRemoved"),
     ("server-update", "ServerUpdate")]
    e e

/-- The `Socket Events` branch of `_match_single_feature`. -/
def matchSocketEvent (feat : Feature) (env : MatchEnv) : Feature :=
  let sock := lookupStr "bb-socket" env.allContent
  if substr ("\"" ++ feat.name ++ "\"") sock then
    { feat with
      status := "implemented"
      rust_file := "bb-socket/src/events.rs"
      rust_symbol := "SocketEventType::" ++ eventToVariant feat.name }
  else if feat.name = "chat-read-status-changed" ∨ feat.name = "ft-call-status-changed" then
    { feat with status := "missing", notes := "Not in event enum yet" }
  else feat

/-- The function `_match_db_model`. -/
def matchDbModel (feat : Feature) (env : MatchEnv) : Feature :=
  let model_name := feat.subcategory
  let field_or_method :=
    if substr "." feat.name then pyAfterFirst feat.name "." else feat.name
  let mc := lookupStr "bb-models" env.allContent
  if env.allStructs.contains model_name || substr model_name mc then
    if substr field_or_method mc then
      let fname := lookupD
        [("ThemeStruct", "theme"), ("ScheduledMessage", "scheduled_message"),
         ("AttributedBody", "attributed_body"), ("PayloadData", "payload_data"),
         ("FcmData", "fcm_data")]
        model_name (pyLower model_name)
      { feat with
        status := "implemented"
        rust_file := "bb-models/src/models/" ++ fname ++ ".rs"
        rust_symbol := model_name ++ "::" ++ field_or_method }
    else
      { feat with
        status := "stubbed"
        notes := "Struct exists but " ++ field_or_method ++ " not found" }
  else
    { feat with status := "missing" }

/-- The `checks` table of `_match_db_infra` (values are evaluated over the
`bb-models` text before the keyword loop runs, as in the source). -/
def dbInfraChecks (mc : String) : List (String × Bool) :=
  [("connection pooling", substr "r2d2" mc || substr "Pool" mc),
   ("wal mode", substr "WAL" mc || substr "wal_mode" mc),
   ("integrity check", substr "integrity_check" mc),
   ("schema creation", substr "create_tables" mc),
   ("versioned migrations", substr "run_migrations" mc),
   ("transaction support", substr "transaction" mc),
   ("database reset", substr "reset" mc && substr "drop_tables" mc),
   ("database stats", substr "DatabaseStats" mc || substr "stats" mc),
   ("settings key-value store", substr "settings" mc && substr "key" mc),
   ("chat-handle join table", substr "chat_handle_join" mc)]

/-- First table entry whose keyword occurs in the lowered entry name. -/
def findCheck : List (String × Bool) → String → Option Bool
  | [], _ => none
  | (k, r) :: t, nm => if substr k nm then some r else findCheck t nm

/-- The function `_match_db_infra`. -/
def matchDbInfra (feat : Feature) (env : MatchEnv) : Feature :=
  let mc := lookupStr "bb-models" env.allContent
  let nameL := pyLower feat.name
  match findCheck (dbInfraChecks mc) nameL with
  | some result =>
    { feat with
      status := if result then "implemented" else "missing"
      rust_file := "bb-models/src/db.rs" }
  | none =>
    if substr nameL (pyLower mc) then { feat with status := "implemented" }
    else { feat with status := "missing" }

/-- The function `_match_service`. -/
def matchService (feat : Feature) (env : MatchEnv) : Feature :=
  let svc := lookupStr "bb-services" env.allContent
  if feat.subcategory = "Flutter-only" then
    { feat with status := "missing", notes := "Flutter-specific service, not ported" }
  else
    let svc_name := feat.subcategory
    let method_name :=
      if substr "." feat.name then pyAfterFirst feat.name "." else feat.name
    if substr svc_name svc && substr method_name svc then
      let fname := lookupD
        [("ChatService", "chat"), ("MessageService", "message"),
         ("ContactService", "contact"), ("AttachmentService", "attachment"),
         ("SyncService", "sync"), ("SettingsService", "settings"),
         ("NotificationService", "notification"), ("QueueService", "queue"),
         ("ServiceRegistry", "registry")]
        svc_name (pyLower svc_name)
      { feat with
        status := "implemented"
        rust_file := "bb-services/src/" ++ fname ++ ".rs"
        rust_symbol := svc_name ++ "::" ++ method_name }
    else if substr svc_name svc then
      { feat with
        status := "stubbed"
        notes := "Service exists but " ++ method_name ++ " not found" }
    else
      { feat with status := "missing" }

/-- The function `_match_cli_command`. -/
def matchCliCommand (feat : Feature) (env : MatchEnv) : Feature :=
  let cli := lookupStr "bb-cli" env.allContent
  match pySplitAll feat.name " " with
  | _ :: group :: cmd :: _ =>
    if substr group cli
        && (substr (pyReplace cmd "-" "_") cli
          || substr (pyCapitalize (pyReplace cmd "-" "")) cli
          || substr (pyTitle cmd) cli) then
      implAt ("bb-cli/src/commands/" ++ group ++ ".rs") feat
    else if substr group cli then
      { feat with status := "stubbed", notes := "Module exists, checking for " ++ cmd }
    else
      { feat with status := "missing" }
  | [_, group] =>
    if substr group cli then implAt ("bb-cli/src/commands/" ++ group ++ ".rs") feat
    else feat
  | _ => feat

/-- The `keyword_map` of `_match_core`: keyword fragment, search term, the
crate text it is looked up in, evidence file. -/
def coreKeywordMap (core socket services : String) :
    List (String × String × String × String) :=
  [("AppConfig", "AppConfig", core, "bb-core/src/config.rs"),
   ("ServerConfig", "ServerConfig", core, "bb-core/src/config.rs"),
   ("DatabaseConfig", "DatabaseConfig", core, "bb-core/src/config.rs"),
   ("LoggingConfig", "LoggingConfig", core, "bb-core/src/config.rs"),
   ("SyncConfig", "SyncConfig", core, "bb-core/src/config.rs"),
   ("NotificationConfig", "NotificationConfig", core, "bb-core/src/config.rs"),
   ("DisplayConfig", "DisplayConfig", core, "bb-core/src/config.rs"),
   ("ConfigHandle", "ConfigHandle", core, "bb-core/src/config.rs"),
   ("BbError", "BbError", core, "bb-core/src/error.rs"),
   ("MessageError", "MessageError", core, "bb-core/src/error.rs"),
   ("init_logging", "init_logging", core, "bb-core/src/logging.rs"),
   ("init_console_logging", "init_console_logging", core, "bb-core/src/logging.rs"),
   ("Platform detection", "Platform", core, "bb-core/src/platform.rs"),
   ("Platform data_dir", "data_dir", core, "bb-core/src/platform.rs"),
   ("Constants", "reactions", core, "bb-core/src/constants.rs"),
   ("AES-256-CBC", "AesCrypto", socket, "bb-socket/src/crypto.rs"),
   ("SocketEventType", "SocketEventType", socket, "bb-socket/src/events.rs"),
   ("EventDispatcher", "EventDispatcher", socket, "bb-socket/src/events.rs"),
   ("ConnectionState", "ConnectionState", socket, "bb-socket/src/events.rs"),
   ("SocketManager", "SocketManager", socket, "bb-socket/src/manager.rs"),
   ("Reconnect with exponential backoff", "reconnect_delay", socket,
    "bb-socket/src/manager.rs"),
   ("Event deduplication", "handled_guids", socket, "bb-socket/src/manager.rs"),
   ("Service trait", "trait Service", services, "bb-services/src/service.rs"),
   ("ServiceState", "ServiceState", services, "bb-services/src/service.rs")]

/-- First `keyword_map` entry whose keyword occurs in the feature name. -/
def findCore : List (String × String × String × String) → String →
    Option (String × String × String)
  | [], _ => none
  | (k, term, content, file) :: t, nm =>
    if substr k nm then some (term, content, file) else findCore t nm

/-- The function `_match_core`. -/
def matchCore (feat : Feature) (env : MatchEnv) : Feature :=
  let core := lookupStr "bb-core" env.allContent
  let socket := lookupStr "bb-socket" env.allContent
  let services := lookupStr "bb-services" env.allContent
  match findCore (coreKeywordMap core socket services) feat.name with
  | some (term, content, file) =>
    if substr term content then
      { feat with status := "implemented", rust_file := file, rust_symbol := term }
    else
      { feat with status := "missing" }
  | none => { feat with status := "missing" }

/-- The function `_match_setting`. -/
def matchSetting (feat : Feature) (env : MatchEnv) : Feature :=
  let core := lookupStr "bb-core" env.allContent
  let snake := pySnakeLower feat.name
  if substr snake core || substr feat.name core then
    { feat with status := "implemented", rust_file := "bb-core/src/config.rs" }
  else
    { feat with status := "missing", notes := "Not in TOML config yet" }

/-- The function `_match_single_feature`: dispatch on the category; an unknown category
leaves the entry untouched. -/
def matchSingleFeature (feat : Feature) (env : MatchEnv) : Feature :=
  if feat.category = "API Endpoints" then matchApiEndpoint feat env
  else if feat.category = "Socket Events" then matchSocketEvent feat env
  else if feat.category = "DB Models" then matchDbModel feat env
  else if feat.category = "DB Infrastructure" then matchDbInfra feat env
  else if feat.category = "Services" then matchService feat env
  else if feat.category = "CLI Commands" then matchCliCommand feat env
  else if feat.category = "Core Infrastructure" then matchCore feat env
  else if feat.category = "Settings" then matchSetting feat env
  else if feat.category = "UI Screens" then
    { feat with status := "missing", notes := "Tauri UI not yet started" }
  else feat

/-- The function `match_features`: every entry is matched on its own against the same
inputs, in list order. -/
def matchFeatures (env : MatchEnv) (feats : List Feature) : List Feature :=
  feats.map (fun f => matchSingleFeature f env)

/-! ## Coverage aggregator -/

/-- Python `sum(1 for f in features if f.status == st)`. -/
def countStatus (st : String) (fs : List Feature) : Nat :=
  (fs.filter (fun f => f.status = st)).length

/-- Python `pct = (implemented / total * 100) if total else 0`, over exact
rationals. -/
def coveragePct (fs : List Feature) : ℚ :=
  if fs.length = 0 then 0
  else (countStatus "implemented" fs : ℚ) / (fs.length : ℚ) * 100

/-- The per-category percentage: the same formula over the entries of one
category. -/
def categoryPct (fs : List Feature) (cat : String) : ℚ :=
  coveragePct (fs.filter (fun f => f.category = cat))

/-! ## Concrete inputs used by counterexamples and witnesses -/

/-- The infrastructure catalog entry for connection pooling, exactly as
`build_feature_matrix` creates it. -/
def featPool : Feature :=
  { category := "DB Infrastructure", subcategory := "Core",
    name := "Connection pooling (r2d2)" }

/-- A model-crate text that contains the generic `Pool` token but not the
`r2d2` library token. -/
def envPoolOnly : MatchEnv :=
  { allStructs := [], allContent := [("bb-models", "static P: Pool = Pool::new")] }

/-- No crate text at all. -/
def envEmpty : MatchEnv := { allStructs := [], allContent := [] }

/-- A UI catalog entry, as `build_feature_matrix` creates it. -/
def featUi : Feature :=
  { category := "UI Screens", subcategory := "Tauri UI", name := "ConversationList" }

/-- A DB-model entry whose struct exists but whose member is absent. -/
def featChatGuid : Feature :=
  { category := "DB Models", subcategory := "Chat", name := "Chat.guid" }

/-- A model text containing the type name `Chat` but not `guid`. -/
def envChatOnly : MatchEnv :=
  { allStructs := [], allContent := [("bb-models", "pub struct Chat")] }

/-- A settings catalog entry, as `build_feature_matrix` creates it. -/
def featUserName : Feature :=
  { category := "Settings", subcategory := "Display", name := "userName" }

/-- A classified entry used to evaluate the aggregator on a nonempty list. -/
def featDone : Feature :=
  { category := "API Endpoints", subcategory := "Server",
    name := "GET /api/v1/ping", status := "implemented" }

/-- The ping endpoint entry, as `build_feature_matrix` creates it. -/
def featPing : Feature :=
  { category := "API Endpoints", subcategory := "Server", name := "GET /api/v1/ping" }

/-- An API-crate text containing the substring `/ping`. -/
def envPing : MatchEnv :=
  { allStructs := [], allContent := [("bb-api", "async fn ping at /ping")] }

/-- The files of the traversal that actually feed the record of crate
`k`: not under `target`, and belonging to `k`. -/
def relevantFiles (k : String) (fs : List SrcFile) : List SrcFile :=
  fs.filter (fun f => !(f.parts.contains "target") && (fileCrate f == k))

/-- What one file adds to `line_count`: nothing when its read failed. -/
def lineContrib (f : SrcFile) : Nat :=
  match f.content with
  | none => 0
  | some c => countNewlines c + 1

/-- What one file adds to `test_count`. -/
def testContrib (f : SrcFile) : Nat :=
  match f.content with
  | none => 0
  | some c => countTests c

/-- What one file adds to a symbol list, for a given extractor. -/
def contentContrib (g : String → List String) (f : SrcFile) : List String :=
  match f.content with
  | none => []
  | some c => g c

/-- The order-insensitive view of a Module Record: the counters, and the
symbol collections read as multisets. -/
def crateView (i : CrateInfo) :
    Nat × Nat × Multiset String × Multiset String × Multiset String
      × Multiset String × Multiset String :=
  (i.line_count, i.test_count, ↑i.structs, ↑i.enums, ↑i.traits,
    ↑i.functions, ↑i.impls)

/-- A file whose read raises. -/
def fileBroken : SrcFile :=
  { parts := ["repo", "bb-core", "lib.rs"], rel := ["bb-core", "lib.rs"],
    content := none }

/-! ## Shape lemmas: what each matcher can do to an entry -/

lemma implAt_status (file : String) (feat : Feature) :
    (implAt file feat).status = "implemented" := rfl

lemma apiSpecialCases_shape (feat : Feature) (m r a : String) :
    apiSpecialCases feat m r a = feat ∨
      ∃ file, apiSpecialCases feat m r a = implAt file feat := by
  have step : ∀ (c : Prop) (inst : Decidable c) (x y : Feature),
      (x = feat ∨ ∃ fl, x = implAt fl feat) →
      (y = feat ∨ ∃ fl, y = implAt fl feat) →
      ((@ite _ c inst x y) = feat ∨ ∃ fl, (@ite _ c inst x y) = implAt fl feat) := by
    intro c inst x y hx hy
    split
    · exact hx
    · exact hy
  unfold apiSpecialCases
  repeat
    first
    | exact Or.inl rfl
    | exact Or.inr ⟨_, rfl⟩
    | refine step _ _ _ _ ?_ ?_

lemma matchApiEndpoint_shape (feat : Feature) (env : MatchEnv) :
    matchApiEndpoint feat env = feat ∨
      ∃ file, matchApiEndpoint feat env = implAt file feat := by
  have step : ∀ (c : Prop) (inst : Decidable c) (x y : Feature),
      (x = feat ∨ ∃ fl, x = implAt fl feat) →
      (y = feat ∨ ∃ fl, y = implAt fl feat) →
      ((@ite _ c inst x y) = feat ∨ ∃ fl, (@ite _ c inst x y) = implAt fl feat) := by
    intro c inst x y hx hy
    split
    · exact hx
    · exact hy
  unfold matchApiEndpoint
  cases hsp : splitOnceAux " ".data feat.name.data with
  | none => exact Or.inl rfl
  | some p =>
    dsimp only
    repeat
      first
      | exact Or.inl rfl
      | exact Or.inr ⟨_, rfl⟩
      | exact apiSpecialCases_shape ..
      | refine step _ _ _ _ ?_ ?_

lemma matchSocketEvent_shape (feat : Feature) (env : MatchEnv) :
    matchSocketEvent feat env = feat
    ∨ (∃ sy, matchSocketEvent feat env =
        { feat with status := "implemented",
                    rust_file := "bb-socket/src/events.rs", rust_symbol := sy })
    ∨ matchSocketEvent feat env =
        { feat with status := "missing", notes := "Not in event enum yet" } := by
  unfold matchSocketEvent
  dsimp only
  repeat' split
  all_goals first
    | exact Or.inl rfl
    | exact Or.inr (Or.inl ⟨_, rfl⟩)
    | exact Or.inr (Or.inr rfl)

lemma matchDbModel_shape (feat : Feature) (env : MatchEnv) :
    (∃ fl sy, matchDbModel feat env =
        { feat with status := "implemented", rust_file := fl, rust_symbol := sy })
    ∨ (∃ n, matchDbModel feat env = { feat with status := "stubbed", notes := n })
    ∨ matchDbModel feat env = { feat with status := "missing" } := by
  unfold matchDbModel
  dsimp only
  repeat' split
  all_goals first
    | exact Or.inl ⟨_, _, rfl⟩
    | exact Or.inr (Or.inl ⟨_, rfl⟩)
    | exact Or.inr (Or.inr rfl)

lemma matchDbInfra_shape (feat : Feature) (env : MatchEnv) :
    (∃ st, (st = "implemented" ∨ st = "missing") ∧
        matchDbInfra feat env =
          { feat with status := st, rust_file := "bb-models/src/db.rs" })
    ∨ matchDbInfra feat env = { feat with status := "implemented" }
    ∨ matchDbInfra feat env = { feat with status := "missing" } := by
  unfold matchDbInfra
  dsimp only
  repeat' split
  all_goals first
    | exact Or.inl ⟨_, Or.inl rfl, rfl⟩
    | exact Or.inl ⟨_, Or.inr rfl, rfl⟩
    | exact Or.inr (Or.inl rfl)
    | exact Or.inr (Or.inr rfl)

lemma matchService_shape (feat : Feature) (env : MatchEnv) :
    (∃ n, matchService feat env = { feat with status := "missing", notes := n })
    ∨ (∃ fl sy, matchService feat env =
        { feat with status := "implemented", rust_file := fl, rust_symbol := sy })
    ∨ (∃ n, matchService feat env = { feat with status := "stubbed", notes := n }) := by
  unfold matchService
  dsimp only
  repeat' split
  all_goals first
    | exact Or.inl ⟨_, rfl⟩
    | exact Or.inr (Or.inl ⟨_, _, rfl⟩)
    | exact Or.inr (Or.inr ⟨_, rfl⟩)

lemma matchCliCommand_shape (feat : Feature) (env : MatchEnv) :
    matchCliCommand feat env = feat
    ∨ (∃ fl, matchCliCommand feat env = implAt fl feat)
    ∨ (∃ n, matchCliCommand feat env = { feat with status := "stubbed", notes := n })
    ∨ matchCliCommand feat env = { feat with status := "missing" } := by
  unfold matchCliCommand
  dsimp only
  repeat' split
  all_goals first
    | exact Or.inl rfl
    | exact Or.inr (Or.inl ⟨_, rfl⟩)
    | exact Or.inr (Or.inr (Or.inl ⟨_, rfl⟩))
    | exact Or.inr (Or.inr (Or.inr rfl))

lemma matchCore_shape (feat : Feature) (env : MatchEnv) :
    (∃ fl sy, matchCore feat env =
        { feat with status := "implemented", rust_file := fl, rust_symbol := sy })
    ∨ matchCore feat env = { feat with status := "missing" } := by
  unfold matchCore
  dsimp only
  repeat' split
  all_goals first
    | exact Or.inl ⟨_, _, rfl⟩
    | exact Or.inr rfl

lemma matchSetting_shape (feat : Feature) (env : MatchEnv) :
    matchSetting feat env = implAt "bb-core/src/config.rs" feat
    ∨ matchSetting feat env =
        { feat with status := "missing", notes := "Not in TOML config yet" } := by
  unfold matchSetting
  dsimp only
  split
  all_goals first
    | exact Or.inl rfl
    | exact Or.inr rfl

/-! ## Master lemmas about `_match_single_feature` -/

lemma matchSingle_stubbed (feat : Feature) (env : MatchEnv)
    (h : (matchSingleFeature feat env).status = "stubbed") :
    feat.status = "stubbed" ∨ feat.category = "DB Models"
      ∨ feat.category = "Services" ∨ feat.category = "CLI Commands" := by
  unfold matchSingleFeature at h
  split_ifs at h with h1 h2 h3 h4 h5 h6 h7 h8 h9
  · rcases matchApiEndpoint_shape feat env with he | ⟨fl, he⟩ <;> rw [he] at h
    · exact Or.inl h
    · exact absurd h (by simp [implAt])
  · rcases matchSocketEvent_shape feat env with he | ⟨sy, he⟩ | he <;> rw [he] at h
    · exact Or.inl h
    · exact absurd h (by simp)
    · exact absurd h (by simp)
  · exact Or.inr (Or.inl h3)
  · rcases matchDbInfra_shape feat env with ⟨st, hst, he⟩ | he | he <;> rw [he] at h
    · simp only [] at h
      rcases hst with rfl | rfl <;> exact absurd h (by simp)
    · exact absurd h (by simp)
    · exact absurd h (by simp)
  · exact Or.inr (Or.inr (Or.inl h5))
  · exact Or.inr (Or.inr (Or.inr h6))
  · rcases matchCore_shape feat env with ⟨fl, sy, he⟩ | he <;> rw [he] at h
    · exact absurd h (by simp)
    · exact absurd h (by simp)
  · rcases matchSetting_shape feat env with he | he <;> rw [he] at h
    · exact absurd h (by simp [implAt])
    · exact absurd h (by simp)
  · exact absurd h (by simp)
  · exact Or.inl h

lemma matchSingle_missing_evidence (feat : Feature) (env : MatchEnv)
    (h : (matchSingleFeature feat env).status = "missing") :
    (matchSingleFeature feat env).rust_symbol = feat.rust_symbol
    ∧ (feat.category = "DB Infrastructure"
        ∨ (matchSingleFeature feat env).rust_file = feat.rust_file) := by
  unfold matchSingleFeature at h ⊢
  split_ifs at h ⊢ with h1 h2 h3 h4 h5 h6 h7 h8 h9
  · rcases matchApiEndpoint_shape feat env with he | ⟨fl, he⟩ <;> rw [he] at h ⊢
    · exact ⟨rfl, Or.inr rfl⟩
    · exact absurd h (by simp [implAt])
  · rcases matchSocketEvent_shape feat env with he | ⟨sy, he⟩ | he <;> rw [he] at h ⊢
    · exact ⟨rfl, Or.inr rfl⟩
    · exact absurd h (by simp)
    · exact ⟨rfl, Or.inr rfl⟩
  · rcases matchDbModel_shape feat env with ⟨fl, sy, he⟩ | ⟨n, he⟩ | he <;> rw [he] at h ⊢
    · exact absurd h (by simp)
    · exact absurd h (by simp)
    · exact ⟨rfl, Or.inr rfl⟩
  · exact ⟨(matchDbInfra_shape feat env).elim
      (fun ⟨st, hst, he⟩ => by rw [he]) (fun he => he.elim
        (fun he => by rw [he]) (fun he => by rw [he])), Or.inl h4⟩
  · rcases matchService_shape feat env with ⟨n, he⟩ | ⟨fl, sy, he⟩ | ⟨n, he⟩ <;> rw [he] at h ⊢
    · exact ⟨rfl, Or.inr rfl⟩
    · exact absurd h (by simp)
    · exact absurd h (by simp)
  · rcases matchCliCommand_shape feat env with he | ⟨fl, he⟩ | ⟨n, he⟩ | he <;> rw [he] at h ⊢
    · exact ⟨rfl, Or.inr rfl⟩
    · exact absurd h (by simp [implAt])
    · exact absurd h (by simp)
    · exact ⟨rfl, Or.inr rfl⟩
  · rcases matchCore_shape feat env with ⟨fl, sy, he⟩ | he <;> rw [he] at h ⊢
    · exact absurd h (by simp)
    · exact ⟨rfl, Or.inr rfl⟩
  · rcases matchSetting_shape feat env with he | he <;> rw [he] at h ⊢
    · exact absurd h (by simp [implAt])
    · exact ⟨rfl, Or.inr rfl⟩
  · exact ⟨rfl, Or.inr rfl⟩
  · exact ⟨rfl, Or.inr rfl⟩

/-! ## Claim C1 -/

/-- C1 counterexample: with a model text containing `Pool` but not
`r2d2`, the connection-pooling entry is classified implemented, so the
two tokens are not both required. -/
theorem connection_pooling_counterexample :
    (matchSingleFeature featPool envPoolOnly).status = "implemented"
    ∧ substr "r2d2" (lookupStr "bb-models" envPoolOnly.allContent) = false := by
  decide

/-- C1 (amended): the connection-pooling check is a disjunction: the
entry is implemented when `r2d2` or `Pool` occurs in the model text and
missing when neither does; the evidence file is set either way. -/
theorem connection_pooling_rule (feat : Feature) (env : MatchEnv)
    (hcat : feat.category = "DB Infrastructure")
    (hkey : substr "connection pooling" (pyLower feat.name) = true) :
    matchSingleFeature feat env =
      { feat with
        status := if substr "r2d2" (lookupStr "bb-models" env.allContent)
              || substr "Pool" (lookupStr "bb-models" env.allContent)
          then "implemented" else "missing"
        rust_file := "bb-models/src/db.rs" } := by
  have hd : matchSingleFeature feat env = matchDbInfra feat env := by
    unfold matchSingleFeature
    rw [hcat]
    simp
  rw [hd]
  unfold matchDbInfra
  dsimp only
  have hf : findCheck (dbInfraChecks (lookupStr "bb-models" env.allContent))
      (pyLower feat.name)
      = some (substr "r2d2" (lookupStr "bb-models" env.allContent)
          || substr "Pool" (lookupStr "bb-models" env.allContent)) := by
    unfold dbInfraChecks findCheck
    rw [if_pos hkey]
  rw [hf]

theorem connection_pooling_rule_witness :
    featPool.category = "DB Infrastructure"
    ∧ substr "connection pooling" (pyLower featPool.name) = true
    ∧ matchSingleFeature featPool envPoolOnly =
      { featPool with
        status := if substr "r2d2" (lookupStr "bb-models" envPoolOnly.allContent)
              || substr "Pool" (lookupStr "bb-models" envPoolOnly.allContent)
          then "implemented" else "missing"
        rust_file := "bb-models/src/db.rs" } :=
  ⟨rfl, by decide, connection_pooling_rule featPool envPoolOnly rfl (by decide)⟩

/-! ## Claim C2 -/

/-- C2 counterexample: a missing infrastructure entry still gets an
evidence location, and a missing UI entry still gets a note, so evidence
fields are not reserved to implemented or stubbed entries. -/
theorem missing_with_evidence_counterexample :
    (matchSingleFeature featPool envEmpty).status = "missing"
    ∧ (matchSingleFeature featPool envEmpty).rust_file = "bb-models/src/db.rs"
    ∧ (matchSingleFeature featUi envEmpty).status = "missing"
    ∧ (matchSingleFeature featUi envEmpty).notes = "Tauri UI not yet started" := by
  decide

/-- C2 (amended): an entry that ends missing never carries an evidence
symbol, and carries no evidence location either unless it is a
DB-infrastructure entry (whose keyword check writes the location even on a
miss); notes, by contrast, may be set on missing entries. -/
theorem missing_entries_no_evidence (feat : Feature) (env : MatchEnv)
    (hsy : feat.rust_symbol = "") (hfl : feat.rust_file = "")
    (hm : (matchSingleFeature feat env).status = "missing") :
    (matchSingleFeature feat env).rust_symbol = ""
    ∧ (feat.category ≠ "DB Infrastructure" →
        (matchSingleFeature feat env).rust_file = "") := by
  obtain ⟨h1, h2⟩ := matchSingle_missing_evidence feat env hm
  refine ⟨h1.trans hsy, fun hc => ?_⟩
  rcases h2 with h2 | h2
  · exact absurd h2 hc
  · exact h2.trans hfl

theorem missing_entries_no_evidence_witness :
    featUi.rust_symbol = "" ∧ featUi.rust_file = ""
    ∧ (matchSingleFeature featUi envEmpty).status = "missing"
    ∧ (matchSingleFeature featUi envEmpty).rust_symbol = ""
    ∧ (featUi.category ≠ "DB Infrastructure" →
        (matchSingleFeature featUi envEmpty).rust_file = "") :=
  ⟨rfl, rfl, by decide,
    missing_entries_no_evidence featUi envEmpty rfl rfl (by decide)⟩

/-! ## Claim C3 -/

/-- C3: starting from the default missing status, an entry can only end
stubbed when its category is DB Models, Services or CLI Commands; every
other category's matcher never produces stubbed. -/
theorem stubbed_only_two_stage (feat : Feature) (env : MatchEnv)
    (h0 : feat.status = "missing")
    (hs : (matchSingleFeature feat env).status = "stubbed") :
    feat.category = "DB Models" ∨ feat.category = "Services"
      ∨ feat.category = "CLI Commands" := by
  rcases matchSingle_stubbed feat env hs with h | h
  · rw [h0] at h
    exact absurd h (by decide)
  · exact h

theorem stubbed_only_two_stage_witness :
    featChatGuid.status = "missing"
    ∧ (matchSingleFeature featChatGuid envChatOnly).status = "stubbed"
    ∧ (featChatGuid.category = "DB Models" ∨ featChatGuid.category = "Services"
        ∨ featChatGuid.category = "CLI Commands") :=
  ⟨rfl, by decide,
    stubbed_only_two_stage featChatGuid envChatOnly rfl (by decide)⟩

/-! ## Claim C5 -/

/-- C5: matching is a pure per-entry map: the classified list decomposes
entrywise, so one entry's outcome is a function of that entry and the
scanned inputs alone, unchanged by whatever entries precede or follow it,
and rematching the same entry yields the same result. -/
theorem matching_independent (env : MatchEnv) (xs ys : List Feature) (f : Feature) :
    matchFeatures env (xs ++ f :: ys)
      = matchFeatures env xs ++ matchSingleFeature f env :: matchFeatures env ys
    ∧ (matchFeatures env (xs ++ f :: ys))[xs.length]?
      = some (matchSingleFeature f env) := by
  constructor
  · simp [matchFeatures]
  · rw [matchFeatures, List.map_append]
    rw [List.getElem?_append_right (by simp)]
    simp

/-! ## Claim C6 -/

/-- C6: a settings entry is implemented exactly when its derived
snake-case form or its original literal occurs in the configuration
module's text, and otherwise it is missing with the fixed note. -/
theorem settings_rule (feat : Feature) (env : MatchEnv)
    (hcat : feat.category = "Settings") :
    ((matchSingleFeature feat env).status = "implemented"
      ↔ (substr (pySnakeLower feat.name) (lookupStr "bb-core" env.allContent)
          || substr feat.name (lookupStr "bb-core" env.allContent)) = true)
    ∧ ((substr (pySnakeLower feat.name) (lookupStr "bb-core" env.allContent)
          || substr feat.name (lookupStr "bb-core" env.allContent)) = false →
        matchSingleFeature feat env =
          { feat with status := "missing", notes := "Not in TOML config yet" }) := by
  have hd : matchSingleFeature feat env = matchSetting feat env := by
    unfold matchSingleFeature
    rw [hcat]
    simp
  rw [hd]
  unfold matchSetting
  dsimp only
  cases hb : (substr (pySnakeLower feat.name) (lookupStr "bb-core" env.allContent)
      || substr feat.name (lookupStr "bb-core" env.allContent)) with
  | true => simp
  | false => simp

theorem settings_rule_witness :
    featUserName.category = "Settings"
    ∧ pySnakeLower featUserName.name = "user_name"
    ∧ (((matchSingleFeature featUserName envEmpty).status = "implemented"
        ↔ (substr (pySnakeLower featUserName.name) (lookupStr "bb-core" envEmpty.allContent)
            || substr featUserName.name (lookupStr "bb-core" envEmpty.allContent)) = true)
      ∧ ((substr (pySnakeLower featUserName.name) (lookupStr "bb-core" envEmpty.allContent)
            || substr featUserName.name (lookupStr "bb-core" envEmpty.allContent)) = false →
          matchSingleFeature featUserName envEmpty =
            { featUserName with status := "missing", notes := "Not in TOML config yet" })) :=
  ⟨rfl, by decide, settings_rule featUserName envEmpty rfl⟩

/-! ## Claim C7 -/

/-- C7: overall and per-category coverage equal implemented / total * 100
whenever the total is positive, and are defined as 0 on an empty total, so
no division by zero is ever evaluated. -/
theorem coverage_pct_law (fs : List Feature) (cat : String) :
    (fs.length = 0 → coveragePct fs = 0)
    ∧ (0 < fs.length →
        coveragePct fs = (countStatus "implemented" fs : ℚ) / (fs.length : ℚ) * 100)
    ∧ ((fs.filter (fun f => f.category = cat)).length = 0 → categoryPct fs cat = 0)
    ∧ (0 < (fs.filter (fun f => f.category = cat)).length →
        categoryPct fs cat
          = (countStatus "implemented" (fs.filter (fun f => f.category = cat)) : ℚ)
            / ((fs.filter (fun f => f.category = cat)).length : ℚ) * 100) := by
  refine ⟨fun h => ?_, fun h => ?_, fun h => ?_, fun h => ?_⟩
  · simp [coveragePct, h]
  · rw [coveragePct, if_neg (by omega)]
  · simp [categoryPct, coveragePct, h]
  · rw [categoryPct, coveragePct, if_neg (by omega)]

theorem coverage_pct_law_witness :
    (coveragePct [] = 0)
    ∧ (0 < [featDone].length
        ∧ coveragePct [featDone]
          = (countStatus "implemented" [featDone] : ℚ) / (([featDone] : List Feature).length : ℚ) * 100) :=
  ⟨(coverage_pct_law [] "x").1 rfl,
    by decide, (coverage_pct_law [featDone] "x").2.1 (by decide)⟩

/-! ## Claim C8: helper lemmas on substring containment and splitting -/

lemma isPrefixOf_append_self (l y : List Char) : l.isPrefixOf (l ++ y) = true := by
  induction l with
  | nil => simp [List.isPrefixOf]
  | cons c t ih => simp [List.isPrefixOf, ih]

lemma pyIn_of_prefix (b l : List Char) (h : b.isPrefixOf l = true) :
    pyIn b l = true := by
  cases l with
  | nil =>
    cases b with
    | nil => rfl
    | cons c t => simp [List.isPrefixOf] at h
  | cons c t => simp [pyIn, h]

lemma pyIn_middle (b x y : List Char) : pyIn b (x ++ b ++ y) = true := by
  induction x with
  | nil => simpa using pyIn_of_prefix b (b ++ y) (isPrefixOf_append_self b y)
  | cons c t ih =>
    have he : ((c :: t) ++ b ++ y) = c :: (t ++ b ++ y) := by simp
    rw [he]
    show (b.isPrefixOf (c :: (t ++ b ++ y)) || pyIn b (t ++ b ++ y)) = true
    rw [ih, Bool.or_true]

lemma splitOnce_first (a b : List Char) (c : Char) (h : c ∉ a) :
    splitOnceAux [c] (a ++ c :: b) = some (a, b) := by
  induction a with
  | nil => simp [splitOnceAux, List.isPrefixOf]
  | cons x a' ih =>
    have hcx : (c == x) = false := by
      simp only [beq_eq_false_iff_ne]
      intro he
      exact h (he ▸ List.mem_cons_self x a')
    have h' : c ∉ a' := fun hm => h (List.mem_cons_of_mem _ hm)
    simp [splitOnceAux, List.isPrefixOf, hcx, ih h']

/-- C8: a data-model entry `T.m` whose type `T` is present (in the struct
index or the model text) but whose member `m` is absent from the model
text ends stubbed, with a note naming the missing member. -/
theorem db_model_member_stubbed (env : MatchEnv) (T m : String) (feat : Feature)
    (hcat : feat.category = "DB Models")
    (hsub : feat.subcategory = T)
    (hname : feat.name = T ++ "." ++ m)
    (hdot : '.' ∉ T.data)
    (hT : (env.allStructs.contains T
        || substr T (lookupStr "bb-models" env.allContent)) = true)
    (hm : substr m (lookupStr "bb-models" env.allContent) = false) :
    (matchSingleFeature feat env).status = "stubbed"
    ∧ (matchSingleFeature feat env).notes = "Struct exists but " ++ m ++ " not found"
    ∧ substr m (matchSingleFeature feat env).notes = true := by
  have hd : matchSingleFeature feat env = matchDbModel feat env := by
    unfold matchSingleFeature
    rw [hcat]
    simp
  have hdata : feat.name.data = T.data ++ '.' :: m.data := by
    rw [hname]
    simp [String.data_append]
  have hin : substr "." feat.name = true := by
    unfold substr
    rw [hdata]
    simpa using pyIn_middle ['.'] T.data m.data
  have hafter : pyAfterFirst feat.name "." = m := by
    unfold pyAfterFirst
    rw [show (".".data : List Char) = ['.'] from rfl, hdata,
      splitOnce_first T.data m.data '.' hdot]
  rw [hd]
  unfold matchDbModel
  dsimp only
  rw [if_pos hin, hafter, hsub, if_pos hT, if_neg (by simp [hm])]
  refine ⟨rfl, rfl, ?_⟩
  unfold substr
  rw [show ("Struct exists but " ++ m ++ " not found").data
      = "Struct exists but ".data ++ m.data ++ " not found".data by
        simp [String.data_append]]
  exact pyIn_middle m.data "Struct exists but ".data " not found".data

theorem db_model_member_stubbed_witness :
    featChatGuid.name = "Chat" ++ "." ++ "guid"
    ∧ substr "guid" (lookupStr "bb-models" envChatOnly.allContent) = false
    ∧ ((matchSingleFeature featChatGuid envChatOnly).status = "stubbed"
      ∧ (matchSingleFeature featChatGuid envChatOnly).notes
          = "Struct exists but " ++ "guid" ++ " not found"
      ∧ substr "guid" (matchSingleFeature featChatGuid envChatOnly).notes = true) :=
  ⟨by decide, by decide,
    db_model_member_stubbed envChatOnly "Chat" "guid" featChatGuid rfl rfl
      (by decide) (by decide) (by decide) (by decide)⟩

/-! ## Claim C9 -/

lemma matchApiEndpoint_rule1 (feat : Feature) (env : MatchEnv) (m p : List Char)
    (hsp : splitOnceAux " ".data feat.name.data = some (m, p))
    (hcond : (substr (braceParams (pyReplace ⟨p⟩ "/api/v1" ""))
        (lookupStr "bb-api" env.allContent)
      || substr ("\"" ++ pyReplace ⟨p⟩ "/api/v1" "" ++ "\"")
        (lookupStr "bb-api" env.allContent)) = true) :
    matchApiEndpoint feat env
      = implAt ("bb-api/src/endpoints/" ++ pyLower feat.subcategory ++ ".rs") feat := by
  unfold matchApiEndpoint
  rw [hsp]
  dsimp only
  rw [if_pos hcond]

/-- C9: for the entry `GET /api/v1/ping`, when the API module text
contains `/ping` the first cascade rule (exact substring of the translated
route) fires and the entry is implemented. -/
theorem ping_first_rule (feat : Feature) (env : MatchEnv)
    (hcat : feat.category = "API Endpoints")
    (hname : feat.name = "GET /api/v1/ping")
    (hping : substr "/ping" (lookupStr "bb-api" env.allContent) = true) :
    (matchSingleFeature feat env).status = "implemented" := by
  have hd : matchSingleFeature feat env = matchApiEndpoint feat env := by
    unfold matchSingleFeature
    rw [if_pos hcat]
  have hsp : splitOnceAux " ".data feat.name.data
      = some ("GET".data, "/api/v1/ping".data) := by
    rw [hname]
    decide
  have hc : (substr (braceParams (pyReplace (⟨"/api/v1/ping".data⟩ : String) "/api/v1" ""))
        (lookupStr "bb-api" env.allContent)
      || substr ("\"" ++ pyReplace (⟨"/api/v1/ping".data⟩ : String) "/api/v1" "" ++ "\"")
        (lookupStr "bb-api" env.allContent)) = true := by
    rw [show pyReplace (⟨"/api/v1/ping".data⟩ : String) "/api/v1" "" = "/ping" from by decide]
    rw [show braceParams "/ping" = "/ping" from by decide]
    rw [hping]
    rfl
  rw [hd, matchApiEndpoint_rule1 feat env "GET".data "/api/v1/ping".data hsp hc]
  rfl

theorem ping_first_rule_witness :
    featPing.category = "API Endpoints"
    ∧ featPing.name = "GET /api/v1/ping"
    ∧ substr "/ping" (lookupStr "bb-api" envPing.allContent) = true
    ∧ (matchSingleFeature featPing envPing).status = "implemented" :=
  ⟨rfl, rfl, by decide, ping_first_rule featPing envPing rfl rfl (by decide)⟩

/-! ## Claims C4 and C10: scanner aggregation -/

lemma lookupCrate_updateCrate_self (crates : List (String × CrateInfo))
    (k : String) (g : CrateInfo → CrateInfo) :
    lookupCrate k (updateCrate crates k g)
      = some (g ((lookupCrate k crates).getD (emptyCrate k))) := by
  induction crates with
  | nil => simp [updateCrate, lookupCrate]
  | cons p rest ih =>
    obtain ⟨k', info⟩ := p
    by_cases hk : k' = k
    · subst hk
      simp [updateCrate, lookupCrate]
    · simp [updateCrate, lookupCrate, hk, ih]

lemma lookupCrate_updateCrate_other (crates : List (String × CrateInfo))
    (k k' : String) (g : CrateInfo → CrateInfo) (h : k ≠ k') :
    lookupCrate k (updateCrate crates k' g) = lookupCrate k crates := by
  induction crates with
  | nil => simp [updateCrate, lookupCrate, Ne.symm h]
  | cons p rest ih =>
    obtain ⟨k0, info⟩ := p
    by_cases hk : k0 = k'
    · subst hk
      simp [updateCrate, lookupCrate, Ne.symm h]
    · simp [updateCrate, lookupCrate, hk, ih]

lemma lookupCrate_foldl (k : String) (fs : List SrcFile)
    (acc : List (String × CrateInfo)) :
    lookupCrate k (fs.foldl processFile acc)
      = match lookupCrate k acc with
        | some info =>
          some ((relevantFiles k fs).foldl (fun i f => addFile f i) info)
        | none =>
          if relevantFiles k fs = [] then none
          else some ((relevantFiles k fs).foldl (fun i f => addFile f i)
            (emptyCrate k)) := by
  induction fs generalizing acc with
  | nil =>
    cases h : lookupCrate k acc <;> simp [relevantFiles, h]
  | cons f fs ih =>
    rw [List.foldl_cons, ih]
    by_cases htar : f.parts.contains "target" = true
    · have hskip : processFile acc f = acc := by
        rw [processFile, if_pos htar]
      have hb : (!(f.parts.contains "target") && (fileCrate f == k)) = false := by
        simp only [htar, Bool.not_true, Bool.false_and]
      have hrel : relevantFiles k (f :: fs) = relevantFiles k fs := by
        simp only [relevantFiles, List.filter_cons, hb]
        rfl
      rw [hskip, hrel]
    · have htar' : f.parts.contains "target" = false := by
        revert htar
        cases f.parts.contains "target" <;> simp
      by_cases hcr : fileCrate f = k
      · have hup : processFile acc f = updateCrate acc k (addFile f) := by
          rw [processFile, if_neg htar, hcr]
        have hb : (!(f.parts.contains "target") && (fileCrate f == k)) = true := by
          rw [htar', beq_iff_eq.mpr hcr]
          rfl
        have hrel : relevantFiles k (f :: fs) = f :: relevantFiles k fs := by
          simp only [relevantFiles, List.filter_cons, hb]
          rfl
        rw [hup, hrel, lookupCrate_updateCrate_self]
        cases h : lookupCrate k acc with
        | some info => simp [h, List.foldl_cons]
        | none => simp [h, List.foldl_cons]
      · have hup : processFile acc f = updateCrate acc (fileCrate f) (addFile f) := by
          rw [processFile, if_neg htar]
        have hb : (!(f.parts.contains "target") && (fileCrate f == k)) = false := by
          rw [beq_eq_false_iff_ne.mpr hcr, Bool.and_false]
        have hrel : relevantFiles k (f :: fs) = relevantFiles k fs := by
          simp only [relevantFiles, List.filter_cons, hb]
          rfl
        rw [hup, hrel, lookupCrate_updateCrate_other _ _ _ _ (fun he => hcr he.symm)]

lemma addFile_line (f : SrcFile) (i : CrateInfo) :
    (addFile f i).line_count = i.line_count + lineContrib f := by
  cases hc : f.content <;> simp [addFile, lineContrib, hc]

lemma addFile_test (f : SrcFile) (i : CrateInfo) :
    (addFile f i).test_count = i.test_count + testContrib f := by
  cases hc : f.content <;> simp [addFile, testContrib, hc]

lemma addFile_structs (f : SrcFile) (i : CrateInfo) :
    (addFile f i).structs = i.structs ++ contentContrib extractStructs f := by
  cases hc : f.content <;> simp [addFile, contentContrib, hc]

lemma addFile_enums (f : SrcFile) (i : CrateInfo) :
    (addFile f i).enums = i.enums ++ contentContrib extractEnums f := by
  cases hc : f.content <;> simp [addFile, contentContrib, hc]

lemma addFile_traits (f : SrcFile) (i : CrateInfo) :
    (addFile f i).traits = i.traits ++ contentContrib extractTraits f := by
  cases hc : f.content <;> simp [addFile, contentContrib, hc]

lemma addFile_functions (f : SrcFile) (i : CrateInfo) :
    (addFile f i).functions = i.functions ++ contentContrib extractFunctions f := by
  cases hc : f.content <;> simp [addFile, contentContrib, hc]

lemma addFile_impls (f : SrcFile) (i : CrateInfo) :
    (addFile f i).impls = i.impls ++ contentContrib extractImpls f := by
  cases hc : f.content <;> simp [addFile, contentContrib, hc]

lemma foldl_addFile_line (l : List SrcFile) (i : CrateInfo) :
    (l.foldl (fun i f => addFile f i) i).line_count
      = i.line_count + (l.map lineContrib).sum := by
  induction l generalizing i with
  | nil => simp
  | cons f t ih => simp [List.foldl_cons, ih, addFile_line, Nat.add_assoc]

lemma foldl_addFile_test (l : List SrcFile) (i : CrateInfo) :
    (l.foldl (fun i f => addFile f i) i).test_count
      = i.test_count + (l.map testContrib).sum := by
  induction l generalizing i with
  | nil => simp
  | cons f t ih => simp [List.foldl_cons, ih, addFile_test, Nat.add_assoc]

lemma foldl_addFile_structs (l : List SrcFile) (i : CrateInfo) :
    (l.foldl (fun i f => addFile f i) i).structs
      = i.structs ++ l.flatMap (contentContrib extractStructs) := by
  induction l generalizing i with
  | nil => simp
  | cons f t ih => simp [List.foldl_cons, ih, addFile_structs]

lemma foldl_addFile_enums (l : List SrcFile) (i : CrateInfo) :
    (l.foldl (fun i f => addFile f i) i).enums
      = i.enums ++ l.flatMap (contentContrib extractEnums) := by
  induction l generalizing i with
  | nil => simp
  | cons f t ih => simp [List.foldl_cons, ih, addFile_enums]

lemma foldl_addFile_traits (l : List SrcFile) (i : CrateInfo) :
    (l.foldl (fun i f => addFile f i) i).traits
      = i.traits ++ l.flatMap (contentContrib extractTraits) := by
  induction l generalizing i with
  | nil => simp
  | cons f t ih => simp [List.foldl_cons, ih, addFile_traits]

lemma foldl_addFile_functions (l : List SrcFile) (i : CrateInfo) :
    (l.foldl (fun i f => addFile f i) i).functions
      = i.functions ++ l.flatMap (contentContrib extractFunctions) := by
  induction l generalizing i with
  | nil => simp
  | cons f t ih => simp [List.foldl_cons, ih, addFile_functions]

lemma foldl_addFile_impls (l : List SrcFile) (i : CrateInfo) :
    (l.foldl (fun i f => addFile f i) i).impls
      = i.impls ++ l.flatMap (contentContrib extractImpls) := by
  induction l generalizing i with
  | nil => simp
  | cons f t ih => simp [List.foldl_cons, ih, addFile_impls]

lemma crateView_foldl_perm (rel₁ rel₂ : List SrcFile) (hp : rel₁.Perm rel₂)
    (k : String) :
    crateView (rel₁.foldl (fun i f => addFile f i) (emptyCrate k))
      = crateView (rel₂.foldl (fun i f => addFile f i) (emptyCrate k)) := by
  unfold crateView
  refine congrArg₂ Prod.mk ?_ (congrArg₂ Prod.mk ?_ (congrArg₂ Prod.mk ?_
    (congrArg₂ Prod.mk ?_ (congrArg₂ Prod.mk ?_ (congrArg₂ Prod.mk ?_ ?_)))))
  · rw [foldl_addFile_line, foldl_addFile_line, (hp.map lineContrib).sum_eq]
  · rw [foldl_addFile_test, foldl_addFile_test, (hp.map testContrib).sum_eq]
  · rw [foldl_addFile_structs, foldl_addFile_structs]
    exact Multiset.coe_eq_coe.mpr (List.Perm.append_left _ (hp.flatMap_right _))
  · rw [foldl_addFile_enums, foldl_addFile_enums]
    exact Multiset.coe_eq_coe.mpr (List.Perm.append_left _ (hp.flatMap_right _))
  · rw [foldl_addFile_traits, foldl_addFile_traits]
    exact Multiset.coe_eq_coe.mpr (List.Perm.append_left _ (hp.flatMap_right _))
  · rw [foldl_addFile_functions, foldl_addFile_functions]
    exact Multiset.coe_eq_coe.mpr (List.Perm.append_left _ (hp.flatMap_right _))
  · rw [foldl_addFile_impls, foldl_addFile_impls]
    exact Multiset.coe_eq_coe.mpr (List.Perm.append_left _ (hp.flatMap_right _))

/-- C4: scanning a permuted traversal of the same files yields, for every
crate name, a Module Record with the same `line_count` and `test_count`
and the same symbol collections up to order (multiset, hence set,
equality). -/
theorem scan_order_independent (fs₁ fs₂ : List SrcFile) (hp : fs₁.Perm fs₂)
    (k : String) :
    Option.map crateView (lookupCrate k (scanRustSource fs₁))
      = Option.map crateView (lookupCrate k (scanRustSource fs₂)) := by
  have hrel : (relevantFiles k fs₁).Perm (relevantFiles k fs₂) := hp.filter _
  unfold scanRustSource
  rw [lookupCrate_foldl, lookupCrate_foldl]
  have h0 : lookupCrate k ([] : List (String × CrateInfo)) = none := rfl
  rw [h0]
  dsimp only
  by_cases hne : relevantFiles k fs₁ = []
  · have hne₂ : relevantFiles k fs₂ = [] := by
      have h := hrel
      rw [hne] at h
      exact h.symm.eq_nil
    rw [if_pos hne, if_pos hne₂]
  · have hne₂ : relevantFiles k fs₂ ≠ [] := by
      intro h0'
      apply hne
      have h := hrel
      rw [h0'] at h
      exact h.eq_nil
    rw [if_neg hne, if_neg hne₂]
    exact congrArg some (crateView_foldl_perm _ _ hrel k)

theorem scan_order_independent_witness :
    ([⟨["r", "a", "x.rs"], ["a", "x.rs"], some "pub struct A"⟩,
      ⟨["r", "b", "y.rs"], ["b", "y.rs"], some "pub fn g() x"⟩] : List SrcFile).Perm
      [⟨["r", "b", "y.rs"], ["b", "y.rs"], some "pub fn g() x"⟩,
        ⟨["r", "a", "x.rs"], ["a", "x.rs"], some "pub struct A"⟩]
    ∧ Option.map crateView (lookupCrate "a" (scanRustSource
        [⟨["r", "a", "x.rs"], ["a", "x.rs"], some "pub struct A"⟩,
          ⟨["r", "b", "y.rs"], ["b", "y.rs"], some "pub fn g() x"⟩]))
      = Option.map crateView (lookupCrate "a" (scanRustSource
          [⟨["r", "b", "y.rs"], ["b", "y.rs"], some "pub fn g() x"⟩,
            ⟨["r", "a", "x.rs"], ["a", "x.rs"], some "pub struct A"⟩])) :=
  ⟨by decide,
    scan_order_independent _ _ (by decide) "a"⟩

/-- C10: a file whose read fails is still appended to its crate's files
list (the append precedes the read), and contributes nothing else: the
whole scan of `fs ++ [f]` is the scan of `fs` with only the files list of
the crate of `f` extended.  In particular the files list can grow longer
than the number of files whose content was extracted. -/
theorem failed_read_still_listed (fs : List SrcFile) (f : SrcFile)
    (hc : f.content = none) (ht : f.parts.contains "target" = false) :
    scanRustSource (fs ++ [f])
      = updateCrate (scanRustSource fs) (fileCrate f)
          (fun i => { i with files := i.files ++ [relStr f] }) := by
  rw [scanRustSource, List.foldl_append]
  show processFile (scanRustSource fs) f = _
  rw [processFile,
    if_neg (fun hcon => by rw [ht] at hcon; exact Bool.false_ne_true hcon)]
  have hg : addFile f = fun i => { i with files := i.files ++ [relStr f] } := by
    funext i
    rw [addFile, hc]
  rw [hg]

theorem failed_read_still_listed_witness :
    fileBroken.content = none
    ∧ fileBroken.parts.contains "target" = false
    ∧ scanRustSource ([] ++ [fileBroken])
      = updateCrate (scanRustSource []) (fileCrate fileBroken)
          (fun i => { i with files := i.files ++ [relStr fileBroken] })
    ∧ lookupCrate "bb-core" (scanRustSource [fileBroken])
      = some { name := "bb-core", files := ["bb-core/lib.rs"] } :=
  ⟨rfl, by decide, failed_read_still_listed [] fileBroken rfl (by decide),
    by decide⟩

end Coverage
